import Mathlib

/-!
Verification development for the vorg media organizer.

The TypeScript sources are shallowly embedded: pure string routines become
Lean functions on `String` / `List Char`; effectful routines (database,
network, filesystem) become pure functions over explicit oracle
environments, with the performed mutations collected in a trace and
JavaScript exceptions modelled with `Except`.
-/

namespace Vorg

/-! ## JavaScript string primitives

`isJsSpace` is the character class matched by the regex `\s` and stripped by
`String.prototype.trim` (WhiteSpace plus LineTerminator). -/

def isJsSpace (c : Char) : Bool :=
  c == ' ' || c == '\t' || c == '\n' || c.toNat == 0x0B || c.toNat == 0x0C ||
  c == '\r' || c.toNat == 0xA0 || c.toNat == 0x1680 ||
  (0x2000 ≤ c.toNat && c.toNat ≤ 0x200A) ||
  c.toNat == 0x2028 || c.toNat == 0x2029 || c.toNat == 0x202F ||
  c.toNat == 0x205F || c.toNat == 0x3000 || c.toNat == 0xFEFF

/-- `String.prototype.trim()` on the character list. -/
def jsTrimChars (l : List Char) : List Char :=
  (l.dropWhile isJsSpace).rdropWhile isJsSpace

/-- `String.prototype.trim()`. -/
def jsTrim (s : String) : String := ⟨jsTrimChars s.data⟩

/-- JavaScript truthiness of an optional number (`undefined` and `0` are falsy). -/
def truthyNat : Option Nat → Bool
  | none => false
  | some n => !(n == 0)

/-- JavaScript truthiness of an optional string (`undefined` and `''` are falsy). -/
def truthyStr : Option String → Bool
  | none => false
  | some s => !s.isEmpty

/-- Template-literal coercion `${x}` of a possibly-undefined string. -/
def jsShowStr : Option String → String
  | none => "undefined"
  | some s => s

/-- Template-literal coercion `${x}` of a possibly-undefined number. -/
def jsShowNat : Option Nat → String
  | none => "undefined"
  | some n => toString n

/-! ## Data model (`src/core-data/parser.ts`, `src/core-data/scanner.ts`) -/

inductive MediaType where
  | movie
  | tv
deriving DecidableEq, Repr

structure MediaMetadata where
  title : Option String
  year : Option Nat := none
  season : Option Nat := none
  episode : Option Nat := none
  type : MediaType
  episodeTitle : Option String := none
deriving DecidableEq, Repr

structure EnrichedMetadata extends MediaMetadata where
  plot : Option String := none
  genre : Option String := none
  director : Option String := none
  actors : Option String := none
  imdbRating : Option String := none
deriving DecidableEq, Repr

/-- The object spread `{ ...metadata }` building an `EnrichedMetadata` from a
`MediaMetadata`: all enrichment-only fields are absent. -/
def toEnriched (m : MediaMetadata) : EnrichedMetadata := { toMediaMetadata := m }

inductive FileKind where
  | video
  | subtitle
deriving DecidableEq, Repr

structure MediaFile where
  path : String
  name : String
  extension : String
  type : FileKind
deriving DecidableEq, Repr

/-! ## `sanitizeFilename` (parser.ts)

The replacement tables map every forbidden character to the empty string, so
the two replacement loops are character filters; then control characters are
removed, trailing dots/whitespace stripped, and an all-whitespace result is
replaced by `"Untitled"`. -/

/-- Characters removed by the Windows and Unix replacement tables. -/
def isForbiddenChar (c : Char) : Bool :=
  c == '<' || c == '>' || c == ':' || c == '"' || c == '|' || c == '?' ||
  c == '*' || c == '\\' || c == '/'

/-- The character class `[\0-\x1F\x7F-\x9F]`. -/
def isControlChar (c : Char) : Bool :=
  c.toNat ≤ 0x1F || (0x7F ≤ c.toNat && c.toNat ≤ 0x9F)

/-- The character class `[.\s]` used by the trailing-strip regex. -/
def isDotOrSpace (c : Char) : Bool := c == '.' || isJsSpace c

/-- The successive `replace` calls with global removal regexes are character
filters; `/[.\s]+$/` removal is `List.rdropWhile`. -/
def stripSanitize (l : List Char) : List Char :=
  let l1 := l.filter (fun c => !isForbiddenChar c)
  let l2 := l1.filter (fun c => !isControlChar c)
  l2.rdropWhile isDotOrSpace

def sanitizeChars (l : List Char) : List Char :=
  if (jsTrimChars (stripSanitize l)).isEmpty then "Untitled".data else stripSanitize l

def sanitizeFilename (s : String) : String := ⟨sanitizeChars s.data⟩

/-! ### Structural lemmas about `sanitizeChars` -/

theorem head?_dropWhile_false (p : Char → Bool) (l : List Char) :
    ∀ c, ((l.dropWhile p).head? = some c) → p c = false := by
  intro c h
  have h2 := List.head?_dropWhile_not p l
  rw [h] at h2
  exact h2

theorem mem_stripSanitize (l : List Char) (c : Char) (hc : c ∈ stripSanitize l) :
    isForbiddenChar c = false ∧ isControlChar c = false := by
  unfold stripSanitize List.rdropWhile at hc
  rw [List.mem_reverse] at hc
  have h2 := List.dropWhile_subset _ hc
  rw [List.mem_reverse] at h2
  have h3 := List.mem_filter.mp h2
  have h4 := List.mem_filter.mp h3.1
  exact ⟨by simpa using h4.2, by simpa using h3.2⟩

theorem getLast?_stripSanitize (l : List Char) (c : Char)
    (hc : (stripSanitize l).getLast? = some c) : isDotOrSpace c = false := by
  unfold stripSanitize List.rdropWhile at hc
  rw [List.getLast?_reverse] at hc
  exact head?_dropWhile_false _ _ c hc

theorem mem_sanitizeChars (l : List Char) (c : Char) (hc : c ∈ sanitizeChars l) :
    isForbiddenChar c = false ∧ isControlChar c = false := by
  unfold sanitizeChars at hc
  split at hc
  · fin_cases hc <;> exact ⟨rfl, rfl⟩
  · exact mem_stripSanitize l c hc

theorem getLast?_sanitizeChars (l : List Char) (c : Char)
    (hc : (sanitizeChars l).getLast? = some c) : isDotOrSpace c = false := by
  unfold sanitizeChars at hc
  split at hc
  · simp [List.getLast?] at hc
    subst hc
    decide
  · exact getLast?_stripSanitize l c hc

theorem sanitizeChars_ne_nil (l : List Char) : sanitizeChars l ≠ [] := by
  unfold sanitizeChars
  split
  · decide
  · next hemp =>
    intro h
    apply hemp
    rw [h]
    decide

theorem jsTrimChars_eq_nil_iff (l : List Char) :
    jsTrimChars l = [] ↔ ∀ c ∈ l, isJsSpace c = true := by
  unfold jsTrimChars
  rw [List.rdropWhile_eq_nil_iff]
  constructor
  · intro h c hc
    rw [← List.takeWhile_append_dropWhile isJsSpace l, List.mem_append] at hc
    rcases hc with hc | hc
    · exact List.mem_takeWhile_imp hc
    · exact h c hc
  · intro h c hc
    exact h c (List.dropWhile_subset _ hc)

theorem jsTrimChars_sanitizeChars_ne_nil (l : List Char) :
    jsTrimChars (sanitizeChars l) ≠ [] := by
  intro h
  have hne := sanitizeChars_ne_nil l
  have hc : (sanitizeChars l).getLast? = some ((sanitizeChars l).getLast hne) :=
    List.getLast?_eq_getLast _ hne
  have hlast := getLast?_sanitizeChars l _ hc
  have hmemlast : (sanitizeChars l).getLast hne ∈ sanitizeChars l := List.getLast_mem hne
  have hsp := (jsTrimChars_eq_nil_iff _).mp h _ hmemlast
  unfold isDotOrSpace at hlast
  rw [hsp] at hlast
  simp at hlast

theorem sanitizeChars_idem (l : List Char) :
    sanitizeChars (sanitizeChars l) = sanitizeChars l := by
  have hf1 : (sanitizeChars l).filter (fun c => !isForbiddenChar c) = sanitizeChars l :=
    List.filter_eq_self.mpr (fun c hc => by simp [(mem_sanitizeChars l c hc).1])
  have hf2 : (sanitizeChars l).filter (fun c => !isControlChar c) = sanitizeChars l :=
    List.filter_eq_self.mpr (fun c hc => by simp [(mem_sanitizeChars l c hc).2])
  have hrd : (sanitizeChars l).rdropWhile isDotOrSpace = sanitizeChars l := by
    rw [List.rdropWhile_eq_self_iff]
    intro hl
    have hc : (sanitizeChars l).getLast? = some ((sanitizeChars l).getLast hl) :=
      List.getLast?_eq_getLast _ hl
    simp [getLast?_sanitizeChars l _ hc]
  have hstrip : stripSanitize (sanitizeChars l) = sanitizeChars l := by
    simp only [stripSanitize]
    rw [hf1, hf2, hrd]
  have htrim : (jsTrimChars (sanitizeChars l)).isEmpty = false :=
    List.isEmpty_eq_false.mpr (jsTrimChars_sanitizeChars_ne_nil l)
  conv_lhs => rw [sanitizeChars]
  rw [hstrip, htrim]
  simp

/-- C9: `sanitizeFilename` removes characters illegal on Windows/Unix
filesystems and control characters, strips trailing dots/spaces, maps the
all-illegal input to the fixed placeholder `"Untitled"`, and is idempotent. -/
theorem c9_sanitizeFilename :
    sanitizeFilename "<>:\"|?*" = "Untitled"
    ∧ (∀ x : String, sanitizeFilename (sanitizeFilename x) = sanitizeFilename x)
    ∧ (∀ x : String, (sanitizeFilename x).data.all
        (fun c => !isForbiddenChar c && !isControlChar c) = true)
    ∧ (∀ x : String, (sanitizeFilename x).data.getLast?.all
        (fun c => !isDotOrSpace c) = true) := by
  refine ⟨by decide, fun x => ?_, fun x => ?_, fun x => ?_⟩
  · show String.mk (sanitizeChars (sanitizeChars x.data)) = String.mk (sanitizeChars x.data)
    rw [sanitizeChars_idem]
  · rw [List.all_eq_true]
    intro c hc
    have h := mem_sanitizeChars x.data c hc
    simp [h.1, h.2]
  · cases hc : (sanitizeFilename x).data.getLast? with
    | none => rfl
    | some c =>
      have h := getLast?_sanitizeChars x.data c hc
      simp [Option.all, h]

/-! ## `parseFilename` / `parseFolderNames` (parser.ts)

`parse-torrent-name` is an external library; its output on the (normalized)
filename, and on each ancestor folder name, enters the embedding as a
`PtnResult` oracle value.  The post-processing performed by `parseFilename`
and `parseFolderNames` on those results is embedded exactly, including the
JavaScript truthiness tests. -/

structure PtnResult where
  title : Option String := none
  year : Option Nat := none
  season : Option Nat := none
  episode : Option Nat := none
deriving DecidableEq, Repr

/-- Case-insensitive match of a (lowercase) pattern against the start of a list. -/
def startsWithCI : List Char → List Char → Bool
  | [], _ => true
  | _ :: _, [] => false
  | p :: ps, c :: cs => (c.toLower == p) && startsWithCI ps cs

/-- `/S\d+/i.test`: contains `S` immediately followed by a digit. -/
def hasSeasonDigits : List Char → Bool
  | [] => false
  | c :: rest =>
    ((c == 'S' || c == 's') && (match rest with | d :: _ => d.isDigit | [] => false))
      || hasSeasonDigits rest

/-- `/Season \d+/i.test`: contains `Season ` followed by a digit. -/
def hasSeasonWord : List Char → Bool
  | [] => false
  | c :: rest =>
    (startsWithCI "season ".data (c :: rest) &&
      (match (c :: rest).drop 7 with | d :: _ => d.isDigit | [] => false))
      || hasSeasonWord rest

/-- Full match of `/^S\d+(E\d+)?$/i` against a character list. -/
def isBareSeasonChars (l : List Char) : Bool :=
  match l with
  | [] => false
  | c :: rest =>
    (c == 'S' || c == 's') &&
    (let tail := rest.dropWhile Char.isDigit
     !(rest.takeWhile Char.isDigit).isEmpty &&
     (tail.isEmpty ||
      (match tail with
       | e :: rest2 => (e == 'E' || e == 'e') &&
           !(rest2.takeWhile Char.isDigit).isEmpty &&
           (rest2.dropWhile Char.isDigit).isEmpty
       | [] => false)))

/-- `/^S\d+(E\d+)?$/i.test(s.trim())`. -/
def isBareSeasonToken (s : String) : Bool := isBareSeasonChars (jsTrim s).data

/-- Value of a digit run (`parseInt` on decimal digits). -/
def digitsToNat (l : List Char) : Nat := l.foldl (fun a c => 10 * a + (c.toNat - 48)) 0

/-- `let title = parsed.title || undefined`. -/
def ptnTitle (p : PtnResult) : Option String :=
  if truthyStr p.title then p.title else none

/-- `type = (parsed.season && parsed.episode) ? 'tv' : 'movie'`. -/
def ptnInitialType (p : PtnResult) : MediaType :=
  if truthyNat p.season && truthyNat p.episode then MediaType.tv else MediaType.movie

/-- The body of the tv-demotion test: a truthy title containing `S\d+` or
`Season \d+` (case-insensitive). -/
def titleHasSeasonMarker : Option String → Bool
  | none => false
  | some t => !t.isEmpty && (hasSeasonDigits t.data || hasSeasonWord t.data)

/-- `if (type === 'tv' && title) { if (/S\d+/i.test(title) || /Season \d+/i.test(title)) type = 'movie' }`. -/
def classifyType (p : PtnResult) : MediaType :=
  let t := ptnInitialType p
  if (t == MediaType.tv) && titleHasSeasonMarker (ptnTitle p) then MediaType.movie else t

/-- `if (title && (/^S\d+(E\d+)?$/i.test(title.trim()) || title.trim().toLowerCase() === 's02')) title = undefined`. -/
def discardBareTitle : Option String → Option String
  | none => none
  | some t =>
    if !t.isEmpty &&
        (isBareSeasonToken t || ((jsTrim t).data.map Char.toLower == "s02".data))
      then none else some t

/-- `if (!year && title) { const yearMatch = title.match(/(\d{4})$/); ... }`:
a trailing 4-digit run becomes the year and `\s*\d{4}$` is stripped and the
title trimmed. -/
def extractTrailingYear (title : Option String) (year : Option Nat) :
    Option String × Option Nat :=
  if truthyNat year then (title, year)
  else
    match title with
    | none => (none, year)
    | some t =>
      if t.isEmpty then (some t, year)
      else
        let rev := t.data.reverse
        if 4 ≤ rev.length && (rev.take 4).all Char.isDigit then
          (some (jsTrim ⟨((rev.drop 4).dropWhile isJsSpace).reverse⟩),
           some (digitsToNat (rev.take 4).reverse))
        else (some t, year)

/-! ### Folder-name parsing (`parseFolderNames`) -/

/-- Accumulated folder metadata; `tv` models `folderMetadata.type`, which is
only ever set to `'tv'`. -/
structure FolderMeta where
  title : Option String := none
  year : Option Nat := none
  season : Option Nat := none
  episode : Option Nat := none
  tv : Bool := false
deriving DecidableEq, Repr

/-- The release-info tag alternation of the folder-title cleanup regexes. -/
def relInfoTags : List String :=
  ["MULTI", "WEB-DL", "SDR", "H265", "H264", "AAC", "AC3", "DDP5.1",
   "2160p", "1080p", "720p", "480p"]

def isLineTerm (c : Char) : Bool :=
  c == '\n' || c == '\r' || c.toNat == 0x2028 || c.toNat == 0x2029

/-- Match `\s*\.(TAGS).*$` anchored at the current position (the `.*` of the
regex does not cross line terminators). -/
def matchesDotTagToEnd (l : List Char) : Bool :=
  match l.dropWhile isJsSpace with
  | '.' :: rest2 => relInfoTags.any (fun tag =>
      startsWithCI (tag.data.map Char.toLower) rest2 &&
      (rest2.drop tag.length).all (fun c => !isLineTerm c))
  | _ => false

/-- `replace(/\s*\.(TAGS).*$/i, '')`: delete from the leftmost match to the end. -/
def removeDotRelInfo : List Char → List Char
  | [] => []
  | c :: rest => if matchesDotTagToEnd (c :: rest) then [] else c :: removeDotRelInfo rest

/-- Try the tag alternation at a position, requiring a `(\s+|$)` boundary;
returns the remainder after the match. -/
def tryTagsBoundary : List String → List Char → Option (List Char)
  | [], _ => none
  | tag :: tags, rest =>
    if startsWithCI (tag.data.map Char.toLower) rest then
      match rest.drop tag.data.length with
      | [] => some []
      | c :: cs =>
        if isJsSpace c then some (cs.dropWhile isJsSpace)
        else tryTagsBoundary tags rest
    else tryTagsBoundary tags rest

/-- `replace(/\s+(TAGS)(\s+|$)/i, '')`: delete the leftmost match only. -/
def removeSpaceRelInfo : List Char → List Char
  | [] => []
  | c :: rest =>
    if isJsSpace c then
      match tryTagsBoundary relInfoTags ((c :: rest).dropWhile isJsSpace) with
      | some remainder => remainder
      | none => c :: removeSpaceRelInfo rest
    else c :: removeSpaceRelInfo rest

/-- The remainders after `S\d+(E\d+)?` at the current position, in regex
backtracking order (with the `E` group first, then without). -/
def seasonEpRests (l : List Char) : List (List Char) :=
  match l with
  | [] => []
  | c :: rest =>
    if (c == 'S' || c == 's') && !(rest.takeWhile Char.isDigit).isEmpty then
      let after := rest.dropWhile Char.isDigit
      match after with
      | e :: rest2 =>
        if (e == 'E' || e == 'e') && !(rest2.takeWhile Char.isDigit).isEmpty then
          [rest2.dropWhile Char.isDigit, after]
        else [after]
      | [] => [after]
    else []

/-- The `(\s+|$)` boundary: consume a whitespace run, or match the end. -/
def boundaryRest : List Char → Option (List Char)
  | [] => some []
  | c :: cs => if isJsSpace c then some (cs.dropWhile isJsSpace) else none

/-- `replace(/\s+S\d+(E\d+)?(\s+|$)/i, '')`: delete the leftmost match only. -/
def removeSpaceSeasonInfo : List Char → List Char
  | [] => []
  | c :: rest =>
    if isJsSpace c then
      match (seasonEpRests ((c :: rest).dropWhile isJsSpace)).findSome? boundaryRest with
      | some remainder => remainder
      | none => c :: removeSpaceSeasonInfo rest
    else c :: removeSpaceSeasonInfo rest

/-- `replace(/S\d+(E\d+)?$/i, '')`: delete a trailing season token. -/
def removeTrailingSeasonTok : List Char → List Char
  | [] => []
  | c :: rest =>
    if (seasonEpRests (c :: rest)).any (fun r => r.isEmpty) then []
    else c :: removeTrailingSeasonTok rest

/-- `replace(/\s+/g, ' ')`: each maximal whitespace run becomes one space.
The flag records whether the previous character was inside a run. -/
def collapseWsGo : Bool → List Char → List Char
  | _, [] => []
  | inRun, c :: rest =>
    if isJsSpace c then
      if inRun then collapseWsGo true rest else ' ' :: collapseWsGo true rest
    else c :: collapseWsGo false rest

def collapseWs (l : List Char) : List Char := collapseWsGo false l

/-- The folder-title cleanup chain of `parseFolderNames`. -/
def cleanFolderTitle (t : String) : String :=
  jsTrim ⟨collapseWs (removeTrailingSeasonTok (removeSpaceSeasonInfo
    (removeSpaceRelInfo (removeDotRelInfo t.data))))⟩

/-- One iteration of the second pass of `parseFolderNames` (a bare-season
folder title `continue`s, skipping the whole iteration). -/
def foldFolder (fm : FolderMeta) (p : PtnResult) : FolderMeta :=
  let rest := fun (fm : FolderMeta) =>
    let fm := if truthyNat p.year && !truthyNat fm.year then { fm with year := p.year } else fm
    let fm := if truthyNat p.season && !truthyNat fm.season then { fm with season := p.season } else fm
    let fm := if truthyNat p.episode && !truthyNat fm.episode then { fm with episode := p.episode } else fm
    if (truthyNat p.season || truthyNat p.episode) && !fm.tv then { fm with tv := true } else fm
  if truthyStr p.title && !truthyStr fm.title then
    match p.title with
    | some t =>
      if isBareSeasonToken t then fm
      else
        let ct := cleanFolderTitle t
        rest (if !ct.isEmpty then { fm with title := some ct } else fm)
    | none => rest fm
  else rest fm

/-- Second pass of `parseFolderNames`: iterate from the outermost collected
folder (closest to the scan root) down to the immediate parent. -/
def parseFolderNames (folderParses : List PtnResult) : FolderMeta :=
  folderParses.reverse.foldl foldFolder {}

/-! ### `parseFilename` merge -/

/-- Folder override of the filename title (parser.ts line 114). -/
def mergeTitle (fm : FolderMeta) (title : Option String) : Option String :=
  if truthyStr fm.title &&
      (match title with
       | none => true
       | some t => t.isEmpty || isBareSeasonToken t || (jsTrim t).isEmpty)
    then fm.title else title

/-- `if (folderValue && !value) value = folderValue` for numeric fields. -/
def mergeOptNat (fv v : Option Nat) : Option Nat :=
  if truthyNat fv && !truthyNat v then fv else v

/-- `if (folderMetadata.type && type === 'movie' && (season || episode)) type = 'tv'`. -/
def mergeType (fm : FolderMeta) (t : MediaType) (season episode : Option Nat) : MediaType :=
  if fm.tv && (t == MediaType.movie) && (truthyNat season || truthyNat episode)
    then MediaType.tv else t

/-- `parseFilename(filename, fullPath?, rootScanPath?)`, with the
parse-torrent-name results supplied as oracles: `p` is the parse of the
normalized filename, `folders` (when the full path and scan root are given)
the parses of the collected ancestor folder names, innermost first. -/
def parseFilenameWith (p : PtnResult) (folders : Option (List PtnResult)) : MediaMetadata :=
  let type1 := classifyType p
  let title1 := discardBareTitle (ptnTitle p)
  let ty := extractTrailingYear title1 p.year
  match folders with
  | none =>
    { title := ty.1, year := ty.2, season := p.season, episode := p.episode, type := type1 }
  | some fps =>
    let fm := parseFolderNames fps
    let season := mergeOptNat fm.season p.season
    let episode := mergeOptNat fm.episode p.episode
    { title := mergeTitle fm ty.1, year := mergeOptNat fm.year ty.2,
      season := season, episode := episode,
      type := mergeType fm type1 season episode }

/-! ### Claims C7 and C8 -/

theorem classifyType_eq_tv_iff (p : PtnResult) :
    classifyType p = MediaType.tv ↔
      (truthyNat p.season && truthyNat p.episode && !titleHasSeasonMarker p.title) = true := by
  have hm : titleHasSeasonMarker (ptnTitle p) = titleHasSeasonMarker p.title := by
    cases ht : p.title with
    | none => simp [ptnTitle, ht, truthyStr]
    | some t =>
      cases he : t.isEmpty
      · simp [ptnTitle, ht, truthyStr, he]
      · simp [ptnTitle, ht, truthyStr, he, titleHasSeasonMarker]
  simp only [classifyType, ptnInitialType]
  rw [hm]
  cases hs : truthyNat p.season <;> cases he : truthyNat p.episode <;>
    cases hmk : titleHasSeasonMarker p.title <;> decide

theorem extractTrailingYear_fst_none (y : Option Nat) :
    (extractTrailingYear none y).1 = none := by
  unfold extractTrailingYear
  split <;> rfl

/-- C7 counterexample: with parse-torrent-name extracting title `CS2`,
season `1` and episode `2`, the title is not itself a bare season token, yet
`parseFilename` classifies the file as a movie (the demotion test fires on
any title merely containing `S` followed by a digit). -/
theorem c7_counterexample :
    (parseFilenameWith { title := some "CS2", season := some 1, episode := some 2 } none).type
        = MediaType.movie
    ∧ truthyNat (some 1) = true ∧ truthyNat (some 2) = true
    ∧ isBareSeasonToken "CS2" = false := by
  decide

/-- C7 (amended): the parser classifies the result as `tv` iff a season
and an episode are both extracted (nonzero) and the extracted title does not
contain a season marker anywhere (a substring matching `S\d+` or
`Season \d+`, case-insensitively) — not merely when the title is not a bare
season token; separately, a bare season-token title (matching
`^S\d+(E\d+)?$` after trimming) is discarded rather than kept. -/
theorem c7_tv_classification :
    (∀ p : PtnResult,
      ((parseFilenameWith p none).type = MediaType.tv ↔
        (truthyNat p.season && truthyNat p.episode && !titleHasSeasonMarker p.title) = true))
    ∧ (∀ (p : PtnResult) (t : String), p.title = some t → isBareSeasonToken t = true →
        (parseFilenameWith p none).title = none) := by
  constructor
  · intro p
    show classifyType p = MediaType.tv ↔ _
    exact classifyType_eq_tv_iff p
  · intro p t hpt hbare
    show (extractTrailingYear (discardBareTitle (ptnTitle p)) p.year).1 = none
    cases he : t.isEmpty
    · have h1 : ptnTitle p = some t := by simp [ptnTitle, hpt, truthyStr, he]
      have h2 : discardBareTitle (some t) = none := by
        simp [discardBareTitle, he, hbare]
      rw [h1, h2, extractTrailingYear_fst_none]
    · have h1 : ptnTitle p = none := by simp [ptnTitle, hpt, truthyStr, he]
      rw [h1]
      show (extractTrailingYear none p.year).1 = none
      exact extractTrailingYear_fst_none p.year

theorem c7_tv_classification_witness :
    ((parseFilenameWith { title := some "Breaking Bad", season := some 5, episode := some 10 }
        none).type = MediaType.tv)
    ∧ (parseFilenameWith { title := some "S02", season := some 3, episode := some 4 }
        none).title = none :=
  ⟨(c7_tv_classification.1 _).mpr (by decide),
   c7_tv_classification.2 _ "S02" rfl (by decide)⟩

/-- C8 counterexample: a filename parse with a season and no episode, inside
a folder parsed with title `Show` and season `2`, yields metadata with
`season = 2`, `episode` absent, and `type = tv` — refuting both the
both-present-or-both-absent invariant and tv-only-when-both-present. -/
theorem c8_counterexample :
    (parseFilenameWith { season := some 2 }
        (some [{ title := some "Show", season := some 2 }])).type = MediaType.tv
    ∧ (parseFilenameWith { season := some 2 }
        (some [{ title := some "Show", season := some 2 }])).season = some 2
    ∧ (parseFilenameWith { season := some 2 }
        (some [{ title := some "Show", season := some 2 }])).episode = none := by
  decide

theorem noFolderMerge_tv_both (p : PtnResult)
    (h : (parseFilenameWith p none).type = MediaType.tv) :
    truthyNat p.season = true ∧ truthyNat p.episode = true := by
  have h2 : classifyType p = MediaType.tv := h
  rw [classifyType_eq_tv_iff] at h2
  simp only [Bool.and_eq_true] at h2
  exact ⟨h2.1.1, h2.1.2⟩

/-- C8 (amended): the parser can return a season without an episode (and
vice versa).  The invariant that does hold is: `type = tv` implies at least
one of season/episode is present and nonzero in the returned metadata, and
on the pure filename path (no folder-fallback merge) `type = tv` implies
both are present and nonzero. -/
theorem c8_season_episode_invariant :
    (∀ (p : PtnResult) (folders : Option (List PtnResult)),
      (parseFilenameWith p folders).type = MediaType.tv →
        (truthyNat (parseFilenameWith p folders).season = true ∨
         truthyNat (parseFilenameWith p folders).episode = true))
    ∧ (∀ p : PtnResult, (parseFilenameWith p none).type = MediaType.tv →
        truthyNat (parseFilenameWith p none).season = true ∧
        truthyNat (parseFilenameWith p none).episode = true) := by
  constructor
  · intro p folders h
    cases folders with
    | none =>
      left
      exact (noFolderMerge_tv_both p h).1
    | some fps =>
      have hty : (parseFilenameWith p (some fps)).type
          = mergeType (parseFolderNames fps) (classifyType p)
              (mergeOptNat (parseFolderNames fps).season p.season)
              (mergeOptNat (parseFolderNames fps).episode p.episode) := rfl
      rw [hty] at h
      unfold mergeType at h
      split at h
      · next hcond =>
        simp only [Bool.and_eq_true, Bool.or_eq_true] at hcond
        rcases hcond.2 with hs | he
        · exact Or.inl hs
        · exact Or.inr he
      · next hcond =>
        have hps : truthyNat p.season = true := by
          have h2 := (classifyType_eq_tv_iff p).mp h
          simp only [Bool.and_eq_true] at h2
          exact h2.1.1
        left
        show truthyNat (mergeOptNat (parseFolderNames fps).season p.season) = true
        simp [mergeOptNat, hps]
  · intro p h
    exact noFolderMerge_tv_both p h

theorem c8_season_episode_invariant_witness :
    truthyNat (parseFilenameWith { title := some "BB", season := some 5, episode := some 10 } none).season = true
    ∧ truthyNat (parseFilenameWith { title := some "BB", season := some 5, episode := some 10 } none).episode = true :=
  c8_season_episode_invariant.2 _ (by decide)

/-! ## `searchAndResolveImdbID` (api.ts)

The OMDB title lookup (`fetch` + `json()`) is a network oracle returning
either the parsed response or `.error` for a thrown exception.  The two
module-level session caches are threaded explicitly. -/

/-- Parsed title-lookup response: the `Response === 'True'` flag and the
(possibly absent) `imdbID` field. -/
structure SearchResp where
  responseTrue : Bool
  imdbID : Option String
deriving DecidableEq, Repr

/-- The session caches `selectionCache` and `searchCache` (only the `imdbID`
field of a cached search result is ever read). -/
structure SearchState where
  selectionCache : List (String × String) := []
  searchCache : List (String × SearchResp) := []
deriving DecidableEq, Repr

structure SearchEnv where
  lookup : String → Option Nat → Except Unit SearchResp

/-- `Map.get` / `Map.has` on the association-list model of a JS `Map`. -/
def mapGet? {α : Type} (m : List (String × α)) (k : String) : Option α :=
  match m.find? (fun e => e.1 == k) with
  | some e => some e.2
  | none => none

/-- `` `${title}${year ? `_${year}` : ''}` ``. -/
def cacheKey (title : String) (year : Option Nat) : String :=
  title ++ (if truthyNat year then "_" ++ jsShowNat year else "")

/-- `searchAndResolveImdbID(title, year)`: returns the resolved id (or
`none` on a failed lookup), the updated caches, and the number of network
lookups performed; `.error` carries the (unchanged) caches when the
fetch/json throws, the exception escaping to the caller. -/
def searchAndResolveImdbID (env : SearchEnv) (st : SearchState)
    (title : String) (year : Option Nat) :
    Except SearchState (Option String × SearchState × Nat) :=
  let key := cacheKey title year
  match mapGet? st.selectionCache key with
  | some sel => .ok (some sel, st, 0)
  | none =>
    match mapGet? st.searchCache key with
    | some cached => .ok (cached.imdbID, st, 0)
    | none =>
      match env.lookup title year with
      | .error _ => .error st
      | .ok resp =>
        if resp.responseTrue then
          .ok (resp.imdbID, { st with searchCache := st.searchCache ++ [(key, resp)] }, 1)
        else
          .ok (none, st, 1)

theorem mapGet?_append {α : Type} (m : List (String × α)) (k : String) (v : α)
    (h : mapGet? m k = none) : mapGet? (m ++ [(k, v)]) k = some v := by
  have h2 : m.find? (fun e => e.1 == k) = none := by
    cases hf : m.find? (fun e => e.1 == k) with
    | none => rfl
    | some e =>
      rw [mapGet?, hf] at h
      exact absurd h (by simp)
  rw [mapGet?, List.find?_append, h2]
  simp

/-- C6 counterexample: with the provider lookup failing (`Response` not
`'True'`), a first resolution of `Alien` performs one lookup and returns the
caches unchanged — so the second resolution attempt, run on the returned
state, performs another provider lookup (count 1, not 0): the failure was
not cached as not-found. -/
theorem c6_counterexample :
    (searchAndResolveImdbID ⟨fun _ _ => Except.ok ⟨false, none⟩⟩ ⟨[], []⟩ "Alien" none
        = Except.ok (none, ⟨[], []⟩, 1))
    ∧ ((searchAndResolveImdbID ⟨fun _ _ => Except.ok ⟨false, none⟩⟩ ⟨[], []⟩ "Alien" none).map
        (fun r => (searchAndResolveImdbID ⟨fun _ _ => Except.ok ⟨false, none⟩⟩ r.2.1 "Alien"
            none).map (fun r2 => r2.2.2))
        = Except.ok (Except.ok 1)) :=
  ⟨rfl, rfl⟩

/-- C6 (amended): identifier resolution caches only successful results for
the session, keyed by `title[_year]`: after a success, a repeated resolution
performs no provider lookup and returns the same id.  A failed resolution is
not cached — the caches come back unchanged, so a repeated attempt performs
another provider lookup. -/
theorem c6_resolution_caching :
    (∀ (env : SearchEnv) (st : SearchState) (title : String) (year : Option Nat)
        (resp : SearchResp),
      env.lookup title year = .ok resp → resp.responseTrue = true →
      mapGet? st.selectionCache (cacheKey title year) = none →
      mapGet? st.searchCache (cacheKey title year) = none →
      ∃ st1, searchAndResolveImdbID env st title year = .ok (resp.imdbID, st1, 1)
        ∧ searchAndResolveImdbID env st1 title year = .ok (resp.imdbID, st1, 0))
    ∧ (∀ (env : SearchEnv) (st : SearchState) (title : String) (year : Option Nat)
        (resp : SearchResp),
      env.lookup title year = .ok resp → resp.responseTrue = false →
      mapGet? st.selectionCache (cacheKey title year) = none →
      mapGet? st.searchCache (cacheKey title year) = none →
      searchAndResolveImdbID env st title year = .ok (none, st, 1)) := by
  constructor
  · intro env st title year resp hlook htrue hsel hsrch
    refine ⟨{ st with searchCache := st.searchCache ++ [(cacheKey title year, resp)] }, ?_, ?_⟩
    · simp [searchAndResolveImdbID, hsel, hsrch, hlook, htrue]
    · simp [searchAndResolveImdbID, hsel, mapGet?_append _ _ _ hsrch]
  · intro env st title year resp hlook hfalse hsel hsrch
    simp [searchAndResolveImdbID, hsel, hsrch, hlook, hfalse]

theorem c6_resolution_caching_witness :
    ∃ st1, searchAndResolveImdbID ⟨fun _ _ => Except.ok ⟨true, some "tt0133093"⟩⟩ ⟨[], []⟩
        "The Matrix" (some 1999) = Except.ok (some "tt0133093", st1, 1)
      ∧ searchAndResolveImdbID ⟨fun _ _ => Except.ok ⟨true, some "tt0133093"⟩⟩ st1
          "The Matrix" (some 1999) = Except.ok (some "tt0133093", st1, 0) :=
  c6_resolution_caching.1 _ _ "The Matrix" (some 1999) ⟨true, some "tt0133093"⟩ rfl rfl rfl rfl

/-! ## `enrichMetadata` (api.ts)

Database reads/writes and the OMDB/TMDB calls are oracles; operations that
may throw a JavaScript exception return `Except Unit`, and the body's
try/catch is the final `match` that turns a carried partial result into the
return value.  `fetchAndStoreTVSeason`, `searchTmdbTVShow` and
`fetchTmdbEpisode` contain their own try/catch and never throw; the effect
of the season batch fetch on the store is captured by the `Bool` phase flag
of `getEpisode`.  API-key retrieval and the logging helpers (which swallow
their own errors) are not modelled. -/

structure DbMovie where
  title : Option String := none
  plot : Option String := none
  genre : Option String := none
  director : Option String := none
  actors : Option String := none
  imdbRating : Option String := none
deriving Repr

structure DbSeries where
  title : Option String := none
  plot : Option String := none
  genre : Option String := none
  actors : Option String := none
  imdbRating : Option String := none
deriving Repr

structure DbEpisode where
  title : Option String := none
  plot : Option String := none
  genre : Option String := none
  actors : Option String := none
  imdbRating : Option String := none
deriving Repr

/-- Parsed OMDB fetch-by-id response (fields consumed by `enrichMetadata`). -/
structure OmdbResp where
  responseTrue : Bool
  type : Option String := none
  title : Option String := none
  year : Option String := none
  plot : Option String := none
  genre : Option String := none
  director : Option String := none
  actors : Option String := none
  imdbRating : Option String := none
deriving Repr

/-- `fetchTmdbEpisode` result (all fields built as plain strings). -/
structure TmdbEp where
  title : String
  plot : String
  genre : String
  actors : String
  imdbRating : String
deriving Repr

structure EnrichEnv where
  search : SearchEnv
  getMovie : String → Except Unit (Option DbMovie)
  getSeries : String → Except Unit (Option DbSeries)
  getEpisode : Bool → String → Nat → Nat → Except Unit (Option DbEpisode)
  fetchById : String → Except Unit OmdbResp
  saveMovieOp : Except Unit Unit
  verifyMovieOp : Except Unit Unit
  saveSeriesOp : Except Unit Unit
  tmdbSearch : Option Nat
  tmdbEpisode : Nat → Nat → Nat → Option TmdbEp
  saveEpisodeBatchOp : Except Unit Unit

/-- Strip trailing JS whitespace. -/
def stripTrailWs (l : List Char) : List Char := l.rdropWhile isJsSpace

/-- `replace(new RegExp(`\\s*\\(${year}\\)\\s*$`), '')` (the year is
interpolated literally into the pattern). -/
def removeParenYear (t y : String) : String :=
  let r := stripTrailWs t.data
  let pat := ('(' :: y.data) ++ [')']
  if pat.isSuffixOf r then ⟨stripTrailWs (r.take (r.length - pat.length))⟩ else t

/-- `replace(new RegExp(`\\s+${year}\\s*$`), '')`: the year at the end,
preceded by at least one whitespace character. -/
def removeSpaceYear (t y : String) : String :=
  let r := stripTrailWs t.data
  if y.data.isSuffixOf r then
    let r2 := r.take (r.length - y.data.length)
    if (stripTrailWs r2).length < r2.length then ⟨stripTrailWs r2⟩ else t
  else t

/-- The movie-title cleaning block: `data.Title.replace(p, '').trim()` with
the parenthesised-year pattern, falling back to the space-separated-year
pattern when the first attempt left the title unchanged. -/
def cleanMovieTitle (t y : String) : String :=
  let t1 := jsTrim (removeParenYear t y)
  if t1 == t then jsTrim (removeSpaceYear t y) else t1

/-- The episode-field copy repeated at each episode hit:
`plot/genre/actors/imdbRating/episodeTitle` from a store record. -/
def applyEpisode (e : EnrichedMetadata) (ep : DbEpisode) : EnrichedMetadata :=
  { e with plot := ep.plot, genre := ep.genre, actors := ep.actors,
           imdbRating := ep.imdbRating, episodeTitle := ep.title }

/-- The fetch-from-OMDB block of `enrichMetadata` (reached on a full store
miss): fetch by id, clean and persist, and copy the enrichment fields. -/
def omdbFullFetch (env : EnrichEnv) (m : MediaMetadata) (imdbID : String)
    (e0 : EnrichedMetadata) : Except EnrichedMetadata EnrichedMetadata :=
  match env.fetchById imdbID with
  | .error _ => .error e0
  | .ok data =>
    if data.responseTrue then
      if data.type == some "movie" then
        let cleanedTitle : Option String :=
          match data.title, data.year with
          | some t, some y =>
            if !t.isEmpty && !y.isEmpty then some (cleanMovieTitle t y) else some t
          | t, _ => t
        match env.saveMovieOp with
        | .error _ => .error e0
        | .ok _ =>
          match env.verifyMovieOp with
          | .error _ => .error e0
          | .ok _ =>
            .ok { e0 with
              title := if truthyStr cleanedTitle then cleanedTitle else e0.title,
              plot := data.plot, genre := data.genre, director := data.director,
              actors := data.actors, imdbRating := data.imdbRating }
      else if data.type == some "series" then
        match env.saveSeriesOp with
        | .error _ => .error e0
        | .ok _ =>
          let e1 : EnrichedMetadata :=
            { e0 with title := if truthyStr data.title then data.title else e0.title }
          if truthyNat m.season && truthyNat m.episode then
            match env.getEpisode true imdbID (m.season.getD 0) (m.episode.getD 0) with
            | .error _ => .error e1
            | .ok (some ep) => .ok (applyEpisode e1 ep)
            | .ok none => .ok e1
          else
            .ok { e1 with plot := data.plot, genre := data.genre,
                          actors := data.actors, imdbRating := data.imdbRating }
      else .ok e0
    else .ok e0

/-- The try-block of `enrichMetadata`; `.error` carries the enrichment state
accumulated when an exception occurred, handed to the catch. -/
def enrichBody (env : EnrichEnv) (st : SearchState) (m : MediaMetadata) :
    Except EnrichedMetadata EnrichedMetadata :=
  let e0 := toEnriched m
  match searchAndResolveImdbID env.search st (jsShowStr m.title) m.year with
  | .error _ => .error e0
  | .ok (none, _, _) => .ok e0
  | .ok (some imdbID, _, _) =>
    match m.type with
    | MediaType.movie =>
      match env.getMovie imdbID with
      | .error _ => .error e0
      | .ok (some mov) =>
        .ok { e0 with title := mov.title, plot := mov.plot, genre := mov.genre,
                      director := mov.director, actors := mov.actors,
                      imdbRating := mov.imdbRating }
      | .ok none => omdbFullFetch env m imdbID e0
    | MediaType.tv =>
      match env.getSeries imdbID with
      | .error _ => .error e0
      | .ok (some ser) =>
        let e1 : EnrichedMetadata := { e0 with title := ser.title }
        if truthyNat m.season && truthyNat m.episode then
          match env.getEpisode false imdbID (m.season.getD 0) (m.episode.getD 0) with
          | .error _ => .error e1
          | .ok (some ep) => .ok (applyEpisode e1 ep)
          | .ok none =>
            match env.getEpisode true imdbID (m.season.getD 0) (m.episode.getD 0) with
            | .error _ => .error e1
            | .ok (some ep2) => .ok (applyEpisode e1 ep2)
            | .ok none =>
              match env.tmdbSearch with
              | some tmdbId =>
                match env.tmdbEpisode tmdbId (m.season.getD 0) (m.episode.getD 0) with
                | some ted =>
                  match env.saveEpisodeBatchOp with
                  | .error _ => .error e1
                  | .ok _ =>
                    .ok { e1 with plot := some ted.plot, genre := some ted.genre,
                                  actors := some ted.actors,
                                  imdbRating := some ted.imdbRating,
                                  episodeTitle := some ted.title }
                | none => .ok e1
              | none => .ok e1
        else
          .ok { e1 with plot := ser.plot, genre := ser.genre, actors := ser.actors,
                        imdbRating := ser.imdbRating }
      | .ok none => omdbFullFetch env m imdbID e0

/-- `enrichMetadata(metadata)`: the catch returns whatever was accumulated,
so the function is total — no exception reaches the caller. -/
def enrichMetadata (env : EnrichEnv) (st : SearchState) (m : MediaMetadata) :
    EnrichedMetadata :=
  match enrichBody env st m with
  | .ok e => e
  | .error e => e

/-! ### Claims C1 and C10 -/

/-- C1: `enrichMetadata` never throws — the embedding is a total function
into `EnrichedMetadata`, every exception path being routed through the catch
— and when canonical-identifier resolution fails (resolves to null, or
itself throws before anything was accumulated) the result is exactly the
input metadata: same parsed fields, no enrichment fields added. -/
theorem c1_enrichMetadata_graceful :
    (∀ (env : EnrichEnv) (st : SearchState) (m : MediaMetadata) (st1 : SearchState) (n : Nat),
      searchAndResolveImdbID env.search st (jsShowStr m.title) m.year
          = .ok (none, st1, n) →
      enrichMetadata env st m = toEnriched m)
    ∧ (∀ (env : EnrichEnv) (st : SearchState) (m : MediaMetadata) (st1 : SearchState),
      searchAndResolveImdbID env.search st (jsShowStr m.title) m.year = .error st1 →
      enrichMetadata env st m = toEnriched m) := by
  constructor
  · intro env st m st1 n h
    simp [enrichMetadata, enrichBody, h]
  · intro env st m st1 h
    simp [enrichMetadata, enrichBody, h]

/-- An environment whose title lookup always answers `Response: False`. -/
def failLookupEnv : EnrichEnv where
  search := ⟨fun _ _ => .ok ⟨false, none⟩⟩
  getMovie := fun _ => .ok none
  getSeries := fun _ => .ok none
  getEpisode := fun _ _ _ _ => .ok none
  fetchById := fun _ => .ok { responseTrue := false }
  saveMovieOp := .ok ()
  verifyMovieOp := .ok ()
  saveSeriesOp := .ok ()
  tmdbSearch := none
  tmdbEpisode := fun _ _ _ => none
  saveEpisodeBatchOp := .ok ()

theorem c1_enrichMetadata_graceful_witness :
    enrichMetadata failLookupEnv ⟨[], []⟩
        { title := some "Unknown Movie", type := MediaType.movie } =
      toEnriched { title := some "Unknown Movie", type := MediaType.movie } :=
  c1_enrichMetadata_graceful.1 failLookupEnv ⟨[], []⟩ _ ⟨[], []⟩ 1 rfl

/-- The fields `enrichMetadata` may never change. -/
def preservesParsed (m : MediaMetadata) (e : EnrichedMetadata) : Prop :=
  e.year = m.year ∧ e.season = m.season ∧ e.episode = m.episode ∧ e.type = m.type

theorem omdbFullFetch_preserves (env : EnrichEnv) (m : MediaMetadata) (imdbID : String)
    (e0 : EnrichedMetadata) (h0 : preservesParsed m e0) (e : EnrichedMetadata)
    (he : omdbFullFetch env m imdbID e0 = .ok e ∨ omdbFullFetch env m imdbID e0 = .error e) :
    preservesParsed m e := by
  obtain ⟨h1, h2, h3, h4⟩ := h0
  simp only [omdbFullFetch] at he
  rcases he with he | he <;> (repeat' split at he) <;>
    first
      | (injection he with he2; subst he2; simp_all [preservesParsed, applyEpisode])
      | injection he

theorem enrichBody_preserves (env : EnrichEnv) (st : SearchState) (m : MediaMetadata)
    (e : EnrichedMetadata)
    (he : enrichBody env st m = .ok e ∨ enrichBody env st m = .error e) :
    preservesParsed m e := by
  have h0 : preservesParsed m (toEnriched m) := ⟨rfl, rfl, rfl, rfl⟩
  simp only [enrichBody] at he
  rcases he with he | he <;> (repeat' split at he) <;>
    first
      | exact omdbFullFetch_preserves env m _ _ h0 e (Or.inl he)
      | exact omdbFullFetch_preserves env m _ _ h0 e (Or.inr he)
      | (injection he with he2; subst he2;
         simp_all [preservesParsed, applyEpisode, toEnriched])
      | injection he

/-- C10: for every environment and input, the metadata returned by
`enrichMetadata` has exactly the input's year, season, episode and type —
enrichment can only change the title and the enrichment-only fields. -/
theorem c10_enrichMetadata_preserves_parsed (env : EnrichEnv) (st : SearchState)
    (m : MediaMetadata) :
    (enrichMetadata env st m).year = m.year
    ∧ (enrichMetadata env st m).season = m.season
    ∧ (enrichMetadata env st m).episode = m.episode
    ∧ (enrichMetadata env st m).type = m.type := by
  unfold enrichMetadata
  cases hb : enrichBody env st m with
  | ok e => exact enrichBody_preserves env st m e (Or.inl hb)
  | error e => exact enrichBody_preserves env st m e (Or.inr hb)

/-! ## `organizeFiles` (business-logic/organizer.ts, current revision)

The filesystem is an oracle (`pathExists`, `moveFails`), the injected
conflict resolver an oracle callback, and every performed mutation
(directory creation, successful move, move-log entry) plus every resolver
invocation is collected in an effect trace.  JavaScript exceptions —
a missing metadata slot (`metadatas[i]` undefined) and
`sanitizeFilename(undefined)` on a title-less metadata reaching name
generation — surface as `Except.error`; a per-file move failure is caught
by the loop's try/catch (`continue`), so it yields an outcome with no
result rather than an error.  The parsing-log and debug-log writers
(which are no-ops for the returned value) are not modelled. -/

inductive Action where
  | move
  | skip
  | overwrite
  | preview
deriving DecidableEq, Repr

structure ProcessedFile where
  originalPath : String
  newPath : String
  metadata : EnrichedMetadata
  action : Action
  errors : List String
deriving DecidableEq, Repr

inductive ConflictChoice where
  | skip
  | overwrite
deriving DecidableEq, Repr

inductive FsEffect where
  | ensureDir (dir : String)
  | move (src dst : String) (overwrite : Bool)
  | record (src dst : String)
  | resolve (src dst : String)
deriving DecidableEq, Repr

structure OrgEnv where
  pathExists : String → Bool
  onConflict : String → String → ConflictChoice
  moveFails : String → String → Bool
  ptnOf : String → PtnResult
  folderPtns : String → List PtnResult

/-- `!field || field.trim() === ''` on an optional string field. -/
def missingStrField : Option String → Bool
  | none => true
  | some s => s.isEmpty || (jsTrim s).isEmpty

/-- `checkMetadataErrors` (organizer.ts lines 40-63). -/
def checkMetadataErrors (m : EnrichedMetadata) : List String :=
  match m.type with
  | MediaType.tv =>
    (if missingStrField m.title then ["Missing TV show name"] else [])
    ++ (if m.season.isNone then ["Missing season number"] else [])
    ++ (if m.episode.isNone then ["Missing episode number"] else [])
    ++ (if missingStrField m.episodeTitle then ["Missing episode title"] else [])
  | MediaType.movie =>
    if missingStrField m.title then ["Missing movie name"] else []

/-- `generateNewName` (parser.ts); `.error` is the TypeError raised by
`sanitizeFilename(undefined)` when a movie has neither title nor year (for
an absent title with a year present, `+=` coerces to the literal string
`undefined`; the TV branch always coerces through a template literal). -/
def generateNewNameE (metadata : EnrichedMetadata) : Except Unit String :=
  match metadata.type with
  | MediaType.movie =>
    match metadata.title with
    | none =>
      if truthyNat metadata.year then
        .ok (sanitizeFilename ("undefined" ++ " (" ++ jsShowNat metadata.year ++ ")"))
      else .error ()
    | some t =>
      .ok (sanitizeFilename
        (t ++ (if truthyNat metadata.year then " (" ++ jsShowNat metadata.year ++ ")" else "")))
  | MediaType.tv =>
    .ok (sanitizeFilename
      (jsShowStr metadata.title
        ++ (if truthyNat metadata.year then " (" ++ jsShowNat metadata.year ++ ")" else "")
        ++ (if metadata.season.isSome && metadata.episode.isSome then
              " - Season " ++ jsShowNat metadata.season
                ++ " Episode " ++ jsShowNat metadata.episode
                ++ (if truthyStr metadata.episodeTitle
                    then " - " ++ jsShowStr metadata.episodeTitle else "")
            else "")))

/-- `path.join`, modelled as separator concatenation (no normalization). -/
def pathJoin (a b : String) : String := a ++ "/" ++ b

/-- Destination directory: movies `{moviePath}/{generateNewName}`, TV
`{tvPath}/{sanitized title}/Season {season}`; `.error` again marks
`sanitizeFilename(undefined)` on an absent title. -/
def plannedDestDirE (moviePath tvPath : String) (metadata : EnrichedMetadata) :
    Except Unit String :=
  match metadata.type with
  | MediaType.movie => (generateNewNameE metadata).map (fun n => pathJoin moviePath n)
  | MediaType.tv =>
    match metadata.title with
    | none => .error ()
    | some t =>
      .ok (pathJoin (pathJoin tvPath (sanitizeFilename t))
            ("Season " ++ jsShowNat metadata.season))

/-- Per-file outcome: the pushed result (none when the move failed and the
catch `continue`d), the final value of the `action` variable, and the
mutations/resolver calls performed. -/
structure FileOutcome where
  result : Option ProcessedFile
  action : Action
  effects : List FsEffect
deriving DecidableEq, Repr

/-- The duplicated tail of both loops (organizer.ts lines 208-245 and
275-315): ensure the directory (apply mode), check the destination, consult
the resolver on conflict in apply mode, then move unless skipping, with a
move failure caught and the result omitted. -/
def finishMove (env : OrgEnv) (preview : Bool) (file : MediaFile)
    (metadata : EnrichedMetadata) (destDir newPath : String) : FileOutcome :=
  let effs0 : List FsEffect := if preview then [] else [FsEffect.ensureDir destDir]
  let step : Action × List FsEffect :=
    if env.pathExists newPath then
      if preview then (Action.overwrite, [])
      else
        match env.onConflict file.path newPath with
        | ConflictChoice.skip => (Action.skip, [FsEffect.resolve file.path newPath])
        | ConflictChoice.overwrite => (Action.overwrite, [FsEffect.resolve file.path newPath])
    else ((if preview then Action.preview else Action.move), [])
  let action := step.1
  let effs1 := effs0 ++ step.2
  if !preview && !(action == Action.skip) then
    if env.moveFails file.path newPath then
      { result := none, action := action, effects := effs1 }
    else
      { result := some ⟨file.path, newPath, metadata, action, []⟩, action := action,
        effects := effs1 ++ [FsEffect.move file.path newPath (action == Action.overwrite),
                             FsEffect.record file.path newPath] }
  else
    { result := some ⟨file.path, newPath, metadata, action, []⟩, action := action,
      effects := effs1 }

/-- One iteration of the video loop. -/
def processVideo (env : OrgEnv) (preview : Bool) (moviePath tvPath : String)
    (file : MediaFile) (metadataSlot : Option EnrichedMetadata) :
    Except Unit FileOutcome :=
  match metadataSlot with
  | none => .error ()
  | some metadata =>
    if (checkMetadataErrors metadata).isEmpty then
      match plannedDestDirE moviePath tvPath metadata, generateNewNameE metadata with
      | .ok destDir, .ok baseName =>
        .ok (finishMove env preview file metadata destDir
              (pathJoin destDir (baseName ++ file.extension)))
      | _, _ => .error ()
    else
      .ok { result := some ⟨file.path, file.path, metadata, Action.skip,
                            checkMetadataErrors metadata⟩,
            action := Action.skip, effects := [] }

/-! ### Subtitle matching (`isSimilarName`) -/

def langCodes : List String :=
  ["eng", "english", "spa", "spanish", "fre", "french", "ger", "german",
   "ita", "italian", "por", "portuguese", "rus", "russian", "jpn",
   "japanese", "kor", "korean", "chi", "chinese", "ara", "arabic",
   "hin", "hindi"]

def subTags : List String := ["sdh", "forced", "cc"]

/-- The tag alternation of `\.(TAGS)(\..*)?$` at a position just past a
dot: a tag, then either the end or a dot followed by the (line-terminator
free) remainder. -/
def matchesCodeToEnd (codes : List String) (rest2 : List Char) : Bool :=
  codes.any (fun code =>
    code.data.isPrefixOf rest2 &&
      (match rest2.drop code.data.length with
       | [] => true
       | '.' :: tail => tail.all (fun c => !isLineTerm c)
       | _ => false))

/-- `replace(/\.(TAGS)(\..*)?$/, '')`: delete from the leftmost match
(which always extends to the end) onward. -/
def removeSuffixTag (codes : List String) : List Char → List Char
  | [] => []
  | c :: rest =>
    if (match c :: rest with
        | '.' :: rest2 => matchesCodeToEnd codes rest2
        | _ => false)
    then []
    else c :: removeSuffixTag codes rest

/-- Lower-case, strip the language-code suffix then the sdh/forced/cc
suffix, and trim. -/
def cleanSubtitleName (s : String) : List Char :=
  jsTrimChars (removeSuffixTag subTags (removeSuffixTag langCodes (s.data.map Char.toLower)))

/-- `String.prototype.includes` (substring containment). -/
def containsSub (hay needle : List Char) : Bool :=
  needle.isPrefixOf hay ||
    (match hay with
     | [] => false
     | _ :: rest => containsSub rest needle)

/-- The character class `[\s.-]` stripped for the loose comparison. -/
def stripPunct (l : List Char) : List Char :=
  l.filter (fun c => !(isJsSpace c || c == '.' || c == '-'))

/-- `isSimilarName(subtitleName, videoName)`. -/
def isSimilarName (subtitleName videoName : String) : Bool :=
  let cleanSubtitle := cleanSubtitleName subtitleName
  let cleanVideo := jsTrimChars (videoName.data.map Char.toLower)
  containsSub cleanSubtitle cleanVideo || containsSub cleanVideo cleanSubtitle ||
    containsSub (stripPunct cleanSubtitle) (stripPunct cleanVideo) ||
    containsSub (stripPunct cleanVideo) (stripPunct cleanSubtitle)

/-- One iteration of the subtitle loop: first similarly-named video wins;
an unmatched subtitle is skipped in place with the metadata parsed from its
own name. -/
def processSub (env : OrgEnv) (preview : Bool) (moviePath tvPath : String)
    (scanPath : Option String) (videos : List (MediaFile × EnrichedMetadata))
    (file : MediaFile) : Except Unit FileOutcome :=
  match videos.find? (fun v => isSimilarName file.name v.1.name) with
  | some v =>
    match plannedDestDirE moviePath tvPath v.2, generateNewNameE v.2 with
    | .ok destDir, .ok baseName =>
      .ok (finishMove env preview file v.2 destDir
            (pathJoin destDir (baseName ++ file.extension)))
    | _, _ => .error ()
  | none =>
    .ok { result := some ⟨file.path, file.path,
            toEnriched (match scanPath with
              | some _ => parseFilenameWith (env.ptnOf file.name)
                  (some (env.folderPtns file.path))
              | none => parseFilenameWith (env.ptnOf file.name) none),
            Action.skip, []⟩,
          action := Action.skip, effects := [] }

/-- The sequential per-file loop: results and effects accumulate in order;
an uncaught exception aborts the loop, the effects already performed
standing. -/
def runLoop {β : Type} (f : β → Except Unit FileOutcome) :
    List β → Except (List FsEffect) (List ProcessedFile × List FsEffect)
  | [] => .ok ([], [])
  | b :: rest =>
    match f b with
    | .error _ => .error []
    | .ok o =>
      match runLoop f rest with
      | .error effs => .error (o.effects ++ effs)
      | .ok (rs, effs) =>
        .ok ((match o.result with | some r => [r] | none => []) ++ rs,
             o.effects ++ effs)

/-- The video partition: each video file paired with `metadatas[i]` for its
index `i` in the full input list. -/
def collectVideoSlots (metadatas : List EnrichedMetadata) :
    List MediaFile → Nat → List (MediaFile × Option EnrichedMetadata)
  | [], _ => []
  | f :: rest, i =>
    if f.type == FileKind.video then
      (f, metadatas[i]?) :: collectVideoSlots metadatas rest (i + 1)
    else collectVideoSlots metadatas rest (i + 1)

/-- `organizeFiles(files, metadatas, moviePath, tvPath, onConflict,
preview, scanPath)`: videos first, then subtitles matched against the video
list. -/
def organizeFiles (env : OrgEnv) (files : List MediaFile)
    (metadatas : List EnrichedMetadata) (moviePath tvPath : String)
    (preview : Bool) (scanPath : Option String) :
    Except (List FsEffect) (List ProcessedFile × List FsEffect) :=
  let videoSlots := collectVideoSlots metadatas files 0
  let subs := files.filter (fun f => f.type == FileKind.subtitle)
  match runLoop (fun vp => processVideo env preview moviePath tvPath vp.1 vp.2) videoSlots with
  | .error effs => .error effs
  | .ok (vres, veffs) =>
    let videos := videoSlots.filterMap (fun vp => vp.2.map (fun md => (vp.1, md)))
    match runLoop (fun f => processSub env preview moviePath tvPath scanPath videos f) subs with
    | .error seffs => .error (veffs ++ seffs)
    | .ok (sres, seffs) => .ok (vres ++ sres, veffs ++ seffs)

/-! ### Claim C2 -/

/-- The mutations performed by a run, whether or not it ends in an
exception. -/
def loopEffects {β : Type} (f : β → Except Unit FileOutcome) (l : List β) :
    List FsEffect :=
  match runLoop f l with
  | .ok (_, effs) => effs
  | .error effs => effs

/-- The mutations performed by an `organizeFiles` run. -/
def orgEffects (env : OrgEnv) (files : List MediaFile)
    (metadatas : List EnrichedMetadata) (moviePath tvPath : String)
    (preview : Bool) (scanPath : Option String) : List FsEffect :=
  match organizeFiles env files metadatas moviePath tvPath preview scanPath with
  | .ok (_, effs) => effs
  | .error effs => effs

theorem finishMove_preview_effects (env : OrgEnv) (file : MediaFile)
    (md : EnrichedMetadata) (destDir newPath : String) :
    (finishMove env true file md destDir newPath).effects = [] := by
  cases h : env.pathExists newPath <;> simp [finishMove, h]

theorem processVideo_preview_effects (env : OrgEnv) (mp tv : String)
    (file : MediaFile) (slot : Option EnrichedMetadata) (o : FileOutcome)
    (h : processVideo env true mp tv file slot = .ok o) : o.effects = [] := by
  unfold processVideo at h
  repeat' split at h
  all_goals
    first
      | (injection h with h2; subst h2; exact finishMove_preview_effects _ _ _ _ _)
      | (injection h with h2; subst h2; rfl)
      | injection h

theorem processSub_preview_effects (env : OrgEnv) (mp tv : String)
    (scanPath : Option String) (videos : List (MediaFile × EnrichedMetadata))
    (file : MediaFile) (o : FileOutcome)
    (h : processSub env true mp tv scanPath videos file = .ok o) : o.effects = [] := by
  unfold processSub at h
  repeat' split at h
  all_goals
    first
      | (injection h with h2; subst h2; exact finishMove_preview_effects _ _ _ _ _)
      | (injection h with h2; subst h2; rfl)
      | injection h

theorem loopEffects_nil {β : Type} (f : β → Except Unit FileOutcome)
    (hf : ∀ b o, f b = .ok o → o.effects = []) :
    ∀ l : List β, loopEffects f l = [] := by
  intro l
  induction l with
  | nil => rfl
  | cons b rest ih =>
    unfold loopEffects runLoop
    cases hfb : f b with
    | error u => rfl
    | ok o =>
      have ho := hf b o hfb
      unfold loopEffects at ih
      cases hr : runLoop f rest with
      | error effs =>
        rw [hr] at ih
        simp at ih
        simp [ho, ih]
      | ok p =>
        obtain ⟨rs, effs⟩ := p
        rw [hr] at ih
        simp at ih
        simp [ho, ih]

/-- C2: in preview mode `organizeFiles` performs no filesystem mutation —
the effect trace (directory creations, moves, move-log entries, and even
conflict-resolver invocations) is empty for every input batch; only the
`pathExists` oracle is consulted. -/
theorem c2_preview_no_mutation (env : OrgEnv) (files : List MediaFile)
    (metadatas : List EnrichedMetadata) (moviePath tvPath : String)
    (scanPath : Option String) :
    orgEffects env files metadatas moviePath tvPath true scanPath = [] := by
  have hv := loopEffects_nil
    (fun vp => processVideo env true moviePath tvPath vp.1 vp.2)
    (fun vp o h => processVideo_preview_effects env moviePath tvPath vp.1 vp.2 o h)
    (collectVideoSlots metadatas files 0)
  unfold loopEffects at hv
  unfold orgEffects organizeFiles
  cases h1 : runLoop (fun vp => processVideo env true moviePath tvPath vp.1 vp.2)
      (collectVideoSlots metadatas files 0) with
  | error effs =>
    rw [h1] at hv
    simp at hv
    simp [h1, hv]
  | ok p =>
    obtain ⟨vres, veffs⟩ := p
    rw [h1] at hv
    simp at hv
    have hs := loopEffects_nil
      (fun f => processSub env true moviePath tvPath scanPath
        ((collectVideoSlots metadatas files 0).filterMap
          (fun vp => vp.2.map (fun md => (vp.1, md)))) f)
      (fun f o h => processSub_preview_effects env moviePath tvPath scanPath _ f o h)
      (files.filter (fun f => f.type == FileKind.subtitle))
    unfold loopEffects at hs
    cases h2 : runLoop (fun f => processSub env true moviePath tvPath scanPath
        ((collectVideoSlots metadatas files 0).filterMap
          (fun vp => vp.2.map (fun md => (vp.1, md)))) f)
        (files.filter (fun f => f.type == FileKind.subtitle)) with
    | error seffs =>
      rw [h2] at hs
      simp at hs
      simp [h1, h2, hv, hs]
    | ok q =>
      obtain ⟨sres, seffs⟩ := q
      rw [h2] at hs
      simp at hs
      simp [h1, h2, hv, hs]

/-! ### Claim C3 -/

theorem title_some_of_no_errors (md : EnrichedMetadata)
    (h : (checkMetadataErrors md).isEmpty = true) : ∃ t, md.title = some t := by
  unfold checkMetadataErrors at h
  cases hty : md.type <;> rw [hty] at h <;>
  · cases hmt : missingStrField md.title
    · cases ht : md.title
      · unfold missingStrField at hmt
        rw [ht] at hmt
        simp at hmt
      · exact ⟨_, rfl⟩
    · rw [hmt] at h
      simp at h

theorem generateNewNameE_ok (md : EnrichedMetadata) (t : String) (ht : md.title = some t) :
    ∃ g, generateNewNameE md = .ok g := by
  cases hty : md.type <;> simp [generateNewNameE, hty, ht]

theorem plannedDestDirE_ok (mp tv : String) (md : EnrichedMetadata) (t : String)
    (ht : md.title = some t) : ∃ d, plannedDestDirE mp tv md = .ok d := by
  obtain ⟨g, hg⟩ := generateNewNameE_ok md t ht
  cases hty : md.type <;> simp [plannedDestDirE, hty, ht, hg, Except.map]

theorem finishMove_result_isSome (env : OrgEnv) (preview : Bool) (file : MediaFile)
    (md : EnrichedMetadata) (destDir newPath : String)
    (h : env.moveFails file.path newPath = false) :
    (finishMove env preview file md destDir newPath).result.isSome = true := by
  unfold finishMove
  repeat' split
  all_goals simp_all

theorem processVideo_full (env : OrgEnv) (preview : Bool) (mp tv : String)
    (file : MediaFile) (md : EnrichedMetadata)
    (hmv : ∀ a b, env.moveFails a b = false) :
    ∃ o, processVideo env preview mp tv file (some md) = .ok o
      ∧ o.result.isSome = true := by
  cases herr : (checkMetadataErrors md).isEmpty
  · refine ⟨{ result := some ⟨file.path, file.path, md, Action.skip, checkMetadataErrors md⟩,
              action := Action.skip, effects := [] }, ?_, rfl⟩
    simp [processVideo, herr]
  · obtain ⟨t, ht⟩ := title_some_of_no_errors md herr
    obtain ⟨g, hg⟩ := generateNewNameE_ok md t ht
    obtain ⟨d, hd⟩ := plannedDestDirE_ok mp tv md t ht
    refine ⟨finishMove env preview file md d (pathJoin d (g ++ file.extension)), ?_,
      finishMove_result_isSome env preview file md d _ (hmv _ _)⟩
    simp [processVideo, herr, hd, hg]

theorem processSub_full (env : OrgEnv) (preview : Bool) (mp tv : String)
    (scanPath : Option String) (videos : List (MediaFile × EnrichedMetadata))
    (file : MediaFile)
    (hmv : ∀ a b, env.moveFails a b = false)
    (hvt : ∀ v ∈ videos, v.2.title.isSome = true) :
    ∃ o, processSub env preview mp tv scanPath videos file = .ok o
      ∧ o.result.isSome = true := by
  cases hfind : videos.find? (fun v => isSimilarName file.name v.1.name) with
  | none =>
    refine ⟨{ result := some ⟨file.path, file.path,
                toEnriched (match scanPath with
                  | some _ => parseFilenameWith (env.ptnOf file.name)
                      (some (env.folderPtns file.path))
                  | none => parseFilenameWith (env.ptnOf file.name) none),
                Action.skip, []⟩,
              action := Action.skip, effects := [] }, ?_, rfl⟩
    simp [processSub, hfind]
  | some v =>
    have hv := hvt v (List.mem_of_find?_eq_some hfind)
    obtain ⟨t, ht⟩ := Option.isSome_iff_exists.mp hv
    obtain ⟨g, hg⟩ := generateNewNameE_ok v.2 t ht
    obtain ⟨d, hd⟩ := plannedDestDirE_ok mp tv v.2 t ht
    refine ⟨finishMove env preview file v.2 d (pathJoin d (g ++ file.extension)), ?_,
      finishMove_result_isSome env preview file v.2 d _ (hmv _ _)⟩
    simp [processSub, hfind, hd, hg]

theorem runLoop_full {β : Type} (f : β → Except Unit FileOutcome) :
    ∀ l : List β, (∀ b ∈ l, ∃ o, f b = .ok o ∧ o.result.isSome = true) →
      ∃ rs effs, runLoop f l = .ok (rs, effs) ∧ rs.length = l.length := by
  intro l
  induction l with
  | nil => exact fun _ => ⟨[], [], rfl, rfl⟩
  | cons b rest ih =>
    intro h
    obtain ⟨o, hfb, hsome⟩ := h b (by simp)
    obtain ⟨rs, effs, hr, hlen⟩ := ih (fun x hx => h x (by simp [hx]))
    obtain ⟨r, hres⟩ := Option.isSome_iff_exists.mp hsome
    refine ⟨[r] ++ rs, o.effects ++ effs, ?_, by simp [hlen]⟩
    simp [runLoop, hfb, hr, hres]

theorem collectVideoSlots_length_add (metadatas : List EnrichedMetadata) :
    ∀ (files : List MediaFile) (i : Nat),
      (collectVideoSlots metadatas files i).length
        + (files.filter (fun f => f.type == FileKind.subtitle)).length
        = files.length := by
  intro files
  induction files with
  | nil => intro i; rfl
  | cons f rest ih =>
    intro i
    have ih2 := ih (i + 1)
    unfold collectVideoSlots
    cases hft : f.type <;> simp [List.filter_cons, hft] <;> omega

theorem collectVideoSlots_isSome (metadatas : List EnrichedMetadata) :
    ∀ (files : List MediaFile) (i : Nat), i + files.length ≤ metadatas.length →
      ∀ p ∈ collectVideoSlots metadatas files i, p.2.isSome = true := by
  intro files
  induction files with
  | nil => intro i h p hp; simp [collectVideoSlots] at hp
  | cons f rest ih =>
    intro i h p hp
    unfold collectVideoSlots at hp
    by_cases hft : (f.type == FileKind.video) = true
    · rw [if_pos hft] at hp
      rcases List.mem_cons.mp hp with hp | hp
      · subst hp
        have hlt : i < metadatas.length := by simp at h; omega
        show (metadatas[i]?).isSome = true
        rw [List.getElem?_eq_getElem hlt]
        rfl
      · exact ih (i + 1) (by simp at h ⊢; omega) p hp
    · rw [if_neg hft] at hp
      exact ih (i + 1) (by simp at h ⊢; omega) p hp

theorem collectVideoSlots_snd_mem (metadatas : List EnrichedMetadata) :
    ∀ (files : List MediaFile) (i : Nat) (p : MediaFile × Option EnrichedMetadata),
      p ∈ collectVideoSlots metadatas files i →
      ∀ md, p.2 = some md → md ∈ metadatas := by
  intro files
  induction files with
  | nil => intro i p hp; simp [collectVideoSlots] at hp
  | cons f rest ih =>
    intro i p hp md hmd
    unfold collectVideoSlots at hp
    by_cases hft : (f.type == FileKind.video) = true
    · rw [if_pos hft] at hp
      rcases List.mem_cons.mp hp with hp | hp
      · subst hp
        simp at hmd
        exact List.getElem?_mem hmd
      · exact ih (i + 1) p hp md hmd
    · rw [if_neg hft] at hp
      exact ih (i + 1) p hp md hmd

/-- C3 counterexample: a single valid video file in apply mode whose
filesystem move fails yields an empty result list — the file's failure is
logged and the file is omitted from the results (the claimed
one-`ProcessedFile`-per-file with the error recorded in it does not hold). -/
theorem c3_counterexample :
    organizeFiles
      ⟨fun _ => false, fun _ _ => ConflictChoice.overwrite, fun _ _ => true,
       fun _ => {}, fun _ => []⟩
      [⟨"/in/A.mp4", "A.mp4", ".mp4", FileKind.video⟩]
      [toEnriched { title := some "A", year := some 2020, type := MediaType.movie }]
      "/movies" "/tv" false none
      = .ok ([], [FsEffect.ensureDir "/movies/A (2020)"]) := by
  rfl

/-- C3 (amended): when the metadata list covers every file, every metadata
has a present title, and no move fails, each video or subtitle file yields
exactly one `ProcessedFile` (the result list has one entry per input file).
A filesystem move failure is caught per file — the iteration still returns
normally (`.ok`), so the remaining files are processed — but the failed
file is omitted from the result set (and its error is not recorded in any
result), rather than recorded in that file's result. -/
theorem c3_one_result_per_file :
    (∀ (env : OrgEnv) (files : List MediaFile) (metadatas : List EnrichedMetadata)
        (moviePath tvPath : String) (preview : Bool) (scanPath : Option String),
      files.length ≤ metadatas.length →
      (∀ a b, env.moveFails a b = false) →
      (∀ md ∈ metadatas, md.title.isSome = true) →
      ∃ rs effs, organizeFiles env files metadatas moviePath tvPath preview scanPath
          = .ok (rs, effs) ∧ rs.length = files.length)
    ∧ (∀ (env : OrgEnv) (mp tv : String) (file : MediaFile) (md : EnrichedMetadata)
        (destDir baseName : String),
      plannedDestDirE mp tv md = .ok destDir →
      generateNewNameE md = .ok baseName →
      (checkMetadataErrors md).isEmpty = true →
      env.pathExists (pathJoin destDir (baseName ++ file.extension)) = false →
      env.moveFails file.path (pathJoin destDir (baseName ++ file.extension)) = true →
      processVideo env false mp tv file (some md)
        = .ok { result := none, action := Action.move,
                effects := [FsEffect.ensureDir destDir] }) := by
  constructor
  · intro env files metadatas moviePath tvPath preview scanPath hlen hmv htitle
    have hslots : ∀ p ∈ collectVideoSlots metadatas files 0, p.2.isSome = true :=
      collectVideoSlots_isSome metadatas files 0 (by omega)
    have hvideo : ∀ vp ∈ collectVideoSlots metadatas files 0,
        ∃ o, processVideo env preview moviePath tvPath vp.1 vp.2 = .ok o
          ∧ o.result.isSome = true := by
      intro vp hvp
      obtain ⟨md, hmd⟩ := Option.isSome_iff_exists.mp (hslots vp hvp)
      rw [hmd]
      exact processVideo_full env preview moviePath tvPath vp.1 md hmv
    obtain ⟨vrs, veffs, hv, hvlen⟩ :=
      runLoop_full _ (collectVideoSlots metadatas files 0) hvideo
    have hvt : ∀ v ∈ (collectVideoSlots metadatas files 0).filterMap
        (fun vp => vp.2.map (fun md => (vp.1, md))), v.2.title.isSome = true := by
      intro v hv2
      obtain ⟨vp, hvp, hmap⟩ := List.mem_filterMap.mp hv2
      cases hvp2 : vp.2 with
      | none => rw [hvp2] at hmap; simp at hmap
      | some md =>
        rw [hvp2] at hmap
        simp at hmap
        have hmem := collectVideoSlots_snd_mem metadatas files 0 vp hvp md hvp2
        rw [← hmap]
        exact htitle md hmem
    have hsub : ∀ f ∈ files.filter (fun f => f.type == FileKind.subtitle),
        ∃ o, processSub env preview moviePath tvPath scanPath
            ((collectVideoSlots metadatas files 0).filterMap
              (fun vp => vp.2.map (fun md => (vp.1, md)))) f = .ok o
          ∧ o.result.isSome = true := by
      intro f _
      exact processSub_full env preview moviePath tvPath scanPath _ f hmv hvt
    obtain ⟨srs, seffs, hs, hslen⟩ :=
      runLoop_full _ (files.filter (fun f => f.type == FileKind.subtitle)) hsub
    refine ⟨vrs ++ srs, veffs ++ seffs, ?_, ?_⟩
    · simp [organizeFiles, hv, hs]
    · have := collectVideoSlots_length_add metadatas files 0
      simp [hvlen, hslen]
      omega
  · intro env mp tv file md destDir baseName hd hg herr hnoc hmf
    simp [processVideo, herr, hd, hg, finishMove, hnoc, hmf]

theorem c3_one_result_per_file_witness :
    processVideo
      ⟨fun _ => false, fun _ _ => ConflictChoice.overwrite, fun _ _ => true,
       fun _ => {}, fun _ => []⟩
      false "/movies" "/tv" ⟨"/in/A.mp4", "A.mp4", ".mp4", FileKind.video⟩
      (some (toEnriched { title := some "A", year := some 2020, type := MediaType.movie }))
      = .ok { result := none, action := Action.move,
              effects := [FsEffect.ensureDir "/movies/A (2020)"] } :=
  c3_one_result_per_file.2 _ "/movies" "/tv" _ _ "/movies/A (2020)" "A (2020)"
    rfl rfl rfl rfl rfl

/-! ### Claim C4 -/

/-- Modelled from the spec sentence: the required fields per type — movie
requires title; TV requires title, season, episode and episodeTitle — used
as the reference enumeration of missing fields. -/
def specRequiredMissing (md : EnrichedMetadata) : List String :=
  match md.type with
  | MediaType.movie => if missingStrField md.title then ["title"] else []
  | MediaType.tv =>
    (if missingStrField md.title then ["title"] else [])
    ++ (if md.season.isNone then ["season"] else [])
    ++ (if md.episode.isNone then ["episode"] else [])
    ++ (if missingStrField md.episodeTitle then ["episodeTitle"] else [])

/-- C4: validation produces exactly one error message per missing required
field (movie: title; TV: title, season, episode, episodeTitle), and a video
file with at least one missing field is routed to `action = skip`, its
planned path equal to its original path, still pushed into the result set,
with no filesystem effect (it is never moved). -/
theorem c4_validation :
    (∀ md : EnrichedMetadata,
      (checkMetadataErrors md).length = (specRequiredMissing md).length
      ∧ ((checkMetadataErrors md).isEmpty = (specRequiredMissing md).isEmpty))
    ∧ (∀ (env : OrgEnv) (preview : Bool) (mp tv : String) (file : MediaFile)
        (md : EnrichedMetadata),
      (checkMetadataErrors md).isEmpty = false →
      processVideo env preview mp tv file (some md)
        = .ok { result := some ⟨file.path, file.path, md, Action.skip,
                               checkMetadataErrors md⟩,
                action := Action.skip, effects := [] }) := by
  constructor
  · intro md
    cases hty : md.type <;>
      simp only [checkMetadataErrors, specRequiredMissing, hty] <;>
      cases h1 : missingStrField md.title <;>
      cases h2 : md.season.isNone <;>
      cases h3 : md.episode.isNone <;>
      cases h4 : missingStrField md.episodeTitle <;>
      simp
  · intro env preview mp tv file md herr
    simp [processVideo, herr]

theorem c4_validation_witness :
    processVideo
      ⟨fun _ => false, fun _ _ => ConflictChoice.skip, fun _ _ => false,
       fun _ => {}, fun _ => []⟩
      false "/movies" "/tv" ⟨"/in/S01E01.mkv", "S01E01.mkv", ".mkv", FileKind.video⟩
      (some (toEnriched { title := none, season := some 1, episode := some 1,
                          type := MediaType.tv }))
      = .ok { result := some ⟨"/in/S01E01.mkv", "/in/S01E01.mkv",
                toEnriched { title := none, season := some 1, episode := some 1,
                             type := MediaType.tv },
                Action.skip, ["Missing TV show name", "Missing episode title"]⟩,
              action := Action.skip, effects := [] } :=
  c4_validation.2 _ false "/movies" "/tv" _ _ rfl

/-! ### Claim C5 -/

def isResolveEffect : FsEffect → Bool
  | FsEffect.resolve _ _ => true
  | _ => false

/-- `if (conflictAction === 'skip') action = 'skip'; else action = 'overwrite'`. -/
def conflictToAction : ConflictChoice → Action
  | ConflictChoice.skip => Action.skip
  | ConflictChoice.overwrite => Action.overwrite

/-- C5: when a file's computed destination already exists
(`pathExists = true`), the shared conflict/move tail used by both the video
and the subtitle loop behaves as claimed: in preview mode the reported
action is `overwrite` (and no resolver call is made — the preview effect
trace is empty); in apply mode the injected resolver is invoked exactly
once for that file and the final action is exactly the value the resolver
returned. -/
theorem c5_conflict_resolution (env : OrgEnv) (file : MediaFile)
    (md : EnrichedMetadata) (destDir newPath : String)
    (hex : env.pathExists newPath = true) :
    ((finishMove env true file md destDir newPath).action = Action.overwrite
      ∧ (finishMove env true file md destDir newPath).result.map
          (fun r => r.action) = some Action.overwrite
      ∧ (finishMove env true file md destDir newPath).effects = [])
    ∧ ((finishMove env false file md destDir newPath).effects.filter isResolveEffect
          = [FsEffect.resolve file.path newPath]
      ∧ (finishMove env false file md destDir newPath).action
          = conflictToAction (env.onConflict file.path newPath)) := by
  constructor
  · simp [finishMove, hex]
  · cases hc : env.onConflict file.path newPath <;>
      cases hmf : env.moveFails file.path newPath <;>
        simp [finishMove, hex, hc, hmf, isResolveEffect, conflictToAction]

theorem c5_conflict_resolution_witness :
    ((finishMove ⟨fun _ => true, fun _ _ => ConflictChoice.skip, fun _ _ => false,
        fun _ => {}, fun _ => []⟩ false
        ⟨"/in/a.mp4", "a.mp4", ".mp4", FileKind.video⟩
        (toEnriched { title := some "A", type := MediaType.movie })
        "/movies/A" "/movies/A/A.mp4").effects.filter isResolveEffect
      = [FsEffect.resolve "/in/a.mp4" "/movies/A/A.mp4"])
    ∧ (finishMove ⟨fun _ => true, fun _ _ => ConflictChoice.skip, fun _ _ => false,
        fun _ => {}, fun _ => []⟩ false
        ⟨"/in/a.mp4", "a.mp4", ".mp4", FileKind.video⟩
        (toEnriched { title := some "A", type := MediaType.movie })
        "/movies/A" "/movies/A/A.mp4").action
      = conflictToAction ((⟨fun _ => true, fun _ _ => ConflictChoice.skip,
          fun _ _ => false, fun _ => {}, fun _ => []⟩ : OrgEnv).onConflict
          "/in/a.mp4" "/movies/A/A.mp4") :=
  (c5_conflict_resolution _ _ _ "/movies/A" "/movies/A/A.mp4" rfl).2

end Vorg
